import Mathlib

/-!
Verification of the `tagent` global-hotkey core (src/config.rs, src/keyboard.rs).

The Rust sources are shallowly embedded: pure functions become Lean functions,
the `static` mutable cells of keyboard.rs become an explicit `HookState` record
threaded through a step function, Windows virtual-key codes are `Nat`, Rust
`Result<T, String>` is `Except String T`, and Rust strings are modelled through
their character lists so that every definition reduces by `decide`/`rfl`.
Timestamps (`Instant`) are `Nat` milliseconds; `Duration::from_millis` is the
identity and `duration_since` is truncated subtraction (monotonic clocks never
go backwards, and Rust's `duration_since` saturates at zero).
-/

namespace Tagent

/-! ## Hotkey data model (config.rs, lines 740-754) -/

/-- The `HotkeyType` enum from config.rs: the three hotkey shapes.  `modifiers` keeps the
source's `Vec<u32>` order. -/
inductive HotkeyType where
  | SingleKey (vk_code : Nat)
  | ModifierCombo (modifiers : List Nat) (key : Nat)
  | DoublePress (vk_code : Nat) (min_interval_ms : Nat) (max_interval_ms : Nat)
  deriving DecidableEq, Repr

/-! ## String helpers

Rust `str` operations used by `HotkeyParser::parse`, modelled on `List Char`:
`trim`, `split('+')`, `to_lowercase` / `eq_ignore_ascii_case`.  Rust's
`to_lowercase` is Unicode-aware but every named key token is ASCII, so ASCII
lowering (Lean's `Char.toLower`) is faithful on all inputs that matter: a token
whose lowering differs between the two is not ASCII and is unknown either way. -/

/-- Rust `str::trim`: drop leading and trailing whitespace. -/
def trimChars (cs : List Char) : List Char :=
  ((cs.dropWhile Char.isWhitespace).reverse.dropWhile Char.isWhitespace).reverse

/-- Rust `str::split('+')`: split at every `'+'`, keeping empty pieces, so `n`
separators yield `n + 1` pieces. -/
def splitPlus : List Char → List (List Char)
  | [] => [[]]
  | c :: rest =>
    if c = '+' then [] :: splitPlus rest
    else
      match splitPlus rest with
      | [] => [[c]]
      | h :: t => (c :: h) :: t

/-- ASCII lowering of a token, as in Rust's `to_lowercase` on ASCII input. -/
def lowerChars (cs : List Char) : List Char := cs.map Char.toLower

/-- Rust `str::eq_ignore_ascii_case`. -/
def eqIgnoreAsciiCase (a b : List Char) : Bool := lowerChars a = lowerChars b

/-! ## `HotkeyParser::key_name_to_vk` (config.rs, lines 805-870) -/

/-- The name-table lookup of `key_name_to_vk`, on the already-lowercased token:
the `match key_lower.as_str()` arms of config.rs lines 808-866.  `none` is the
fall-through `Err("Unknown key name: ...")` arm. -/
def keyTableLookup (lo : List Char) : Option Nat :=
  if lo = "ctrl".toList ∨ lo = "control".toList then some 17
  else if lo = "lctrl".toList ∨ lo = "lcontrol".toList then some 162
  else if lo = "rctrl".toList ∨ lo = "rcontrol".toList then some 163
  else if lo = "alt".toList then some 18
  else if lo = "lalt".toList then some 164
  else if lo = "ralt".toList then some 165
  else if lo = "shift".toList then some 16
  else if lo = "lshift".toList then some 160
  else if lo = "rshift".toList then some 161
  else if lo = "win".toList ∨ lo = "windows".toList ∨ lo = "lwin".toList then some 91
  else if lo = "rwin".toList then some 92
  else if lo = "f1".toList then some 112
  else if lo = "f2".toList then some 113
  else if lo = "f3".toList then some 114
  else if lo = "f4".toList then some 115
  else if lo = "f5".toList then some 116
  else if lo = "f6".toList then some 117
  else if lo = "f7".toList then some 118
  else if lo = "f8".toList then some 119
  else if lo = "f9".toList then some 120
  else if lo = "f10".toList then some 121
  else if lo = "f11".toList then some 122
  else if lo = "f12".toList then some 123
  else if lo = "space".toList then some 32
  else if lo = "tab".toList then some 9
  else if lo = "enter".toList ∨ lo = "return".toList then some 13
  else if lo = "esc".toList ∨ lo = "escape".toList then some 27
  else if lo = "backspace".toList then some 8
  else if lo = "delete".toList ∨ lo = "del".toList then some 46
  else if lo = "insert".toList ∨ lo = "ins".toList then some 45
  else if lo = "home".toList then some 36
  else if lo = "end".toList then some 35
  else if lo = "pageup".toList ∨ lo = "pgup".toList then some 33
  else if lo = "pagedown".toList ∨ lo = "pgdn".toList then some 34
  else if lo = "left".toList then some 37
  else if lo = "right".toList then some 39
  else if lo = "up".toList then some 38
  else if lo = "down".toList then some 40
  else
    match lo with
    | [c] =>
      if c.isAlpha then some c.toUpper.toNat
      else if c.isDigit then some c.toNat
      else none
    | _ => none

/-- Rust `HotkeyParser::key_name_to_vk`: lowercase the token, look it up, and report
the original token in the error message on failure. -/
def key_name_to_vk (key_name : List Char) : Except String Nat :=
  match keyTableLookup (lowerChars key_name) with
  | some vk => .ok vk
  | none => .error ("Unknown key name: " ++ String.mk key_name)

/-! ## `HotkeyParser::parse` (config.rs, lines 760-802) -/

/-- Short-circuiting `collect::<Result<Vec<u32>, String>>` over
`key_name_to_vk`, as used for the modifier tokens. -/
def collectVks : List (List Char) → Except String (List Nat)
  | [] => .ok []
  | t :: ts =>
    match key_name_to_vk t with
    | .error e => .error e
    | .ok v =>
      match collectVks ts with
      | .error e => .error e
      | .ok vs => .ok (v :: vs)

/-- The modifier-combination tail of `parse` (config.rs lines 781-796): last
token is the trigger key, the preceding tokens are the modifiers. -/
def parseCombo (parts : List (List Char)) : Except String HotkeyType :=
  if parts.length < 2 then .error "Invalid modifier combination"
  else
    match key_name_to_vk (parts.getLastD []) with
    | .error e => .error e
    | .ok key =>
      match collectVks parts.dropLast with
      | .error e => .error e
      | .ok mods => .ok (.ModifierCombo mods key)

/-- The `'+'`-branch of `parse` (config.rs lines 768-796), applied to the
trimmed pieces: Rust's `parts.len() == 2 && parts[0].eq_ignore_ascii_case(parts[1])`
gives a `DoublePress` with the default window, everything else falls to the
modifier-combination logic. -/
def parsePlus (parts : List (List Char)) : Except String HotkeyType :=
  if parts.length = 2 ∧ eqIgnoreAsciiCase (parts.getD 0 []) (parts.getD 1 [])
  then
    match key_name_to_vk (parts.getD 0 []) with
    | .error e => .error e
    | .ok vk => .ok (.DoublePress vk 50 500)
  else parseCombo parts

/-- Rust `HotkeyParser::parse`: trim; empty fails; with a `'+'`, split and trim the
pieces and use the `'+'`-branch; without a `'+'` the token is a single key. -/
def parse (hotkey_str : String) : Except String HotkeyType :=
  if trimChars hotkey_str.toList = [] then .error "Empty hotkey string"
  else if (trimChars hotkey_str.toList).contains '+' then
    parsePlus ((splitPlus (trimChars hotkey_str.toList)).map trimChars)
  else
    match key_name_to_vk (trimChars hotkey_str.toList) with
    | .error e => .error e
    | .ok vk => .ok (.SingleKey vk)

/-- The token list `parse` works over: the trimmed `'+'`-split pieces when a
`'+'` is present, else the whole trimmed string as the only token. -/
def hotkeyTokens (hotkey_str : String) : List (List Char) :=
  if (trimChars hotkey_str.toList).contains '+' then
    (splitPlus (trimChars hotkey_str.toList)).map trimChars
  else [trimChars hotkey_str.toList]

/-! ## `HotkeyParser::validate_hotkey` (config.rs, lines 873-924) -/

/-- Rust `HotkeyParser::validate_hotkey`: single keys must be F1-F12 (vk 112-123);
a modifier list that is exactly one `Shift` entry is rejected; `Ctrl+Alt+Delete`
and `Win+L` are rejected; everything else (including every `DoublePress`)
passes.  The Alt+F4 case only prints a warning and still returns `Ok`. -/
def validate_hotkey (hotkey : HotkeyType) : Except String Unit :=
  match hotkey with
  | .SingleKey vk_code =>
    if vk_code < 112 ∨ vk_code > 123 then
      .error "Single keys are only allowed for F1-F12. For other keys like Space, Tab, etc., use modifier combinations (e.g., Alt+Space, Ctrl+T)"
    else .ok ()
  | .ModifierCombo modifiers key =>
    let has_shift := modifiers.contains 16
    let only_shift := modifiers.length = 1 ∧ has_shift
    if only_shift then
      .error "Shift+Key combinations are not allowed (interferes with text input). Use multi-modifier combinations like Ctrl+Shift+T or Alt+Shift+Space instead."
    else
      let has_ctrl := modifiers.any fun m => m = 17 ∨ m = 162 ∨ m = 163
      let has_alt := modifiers.any fun m => m = 18 ∨ m = 164 ∨ m = 165
      let has_win := modifiers.any fun m => m = 91 ∨ m = 92
      if has_ctrl ∧ has_alt ∧ key = 46 then
        .error "Ctrl+Alt+Delete is reserved by the system"
      else if has_win ∧ key = 76 then
        .error "Win+L (lock screen) is reserved by the system"
      else .ok ()
  | .DoublePress _ _ _ => .ok ()

/-! ## Keyboard hook state (keyboard.rs, statics at lines 16-30)

The `static` cells of keyboard.rs gathered into one record.  The
`MODIFIER_STATE` `HashMap<u32, bool>` is modelled as a total function with
default `false`, which is exactly how the source reads it
(`state.get(m).copied().unwrap_or(false)`). -/

/-- The mutable globals of keyboard.rs: the shared modifier map, the two
double-press anchors (`LAST_KEY_TIME`, `SPEECH_LAST_KEY_TIME`), the two busy
guards (`IS_PROCESSING`, `IS_SPEAKING`) and the speech cancel flag
(`SHOULD_STOP_SPEECH`). -/
structure HookState where
  modifierState : Nat → Bool
  lastKeyTime : Option Nat
  speechLastKeyTime : Option Nat
  isProcessing : Bool
  isSpeaking : Bool
  shouldStopSpeech : Bool

/-- The state at startup: empty modifier map, no anchors, nothing in flight. -/
def initState : HookState :=
  { modifierState := fun _ => false
    lastKeyTime := none
    speechLastKeyTime := none
    isProcessing := false
    isSpeaking := false
    shouldStopSpeech := false }

/-- Rust `HashMap::insert` on the modifier map. -/
def mapInsert (m : Nat → Bool) (k : Nat) (v : Bool) : Nat → Bool :=
  fun x => if x = k then v else m x

/-- The read-only configuration consulted by the hook: the two parsed hotkeys
(`TRANSLATE_HOTKEY_CONFIG`, `SPEECH_HOTKEY_CONFIG`) and the speech enable flags
(`SPEECH_HOTKEY_ENABLED`, `SPEECH_ENABLED`). -/
structure HookConfig where
  translateHotkey : Option HotkeyType
  speechHotkey : Option HotkeyType
  speechHotkeyEnabled : Bool
  speechEnabled : Bool

/-- Rust `normalize_vk_code` (keyboard.rs lines 358-365): map left/right-specific
Ctrl/Alt/Shift codes to the generic code. -/
def normalize_vk_code (vk_code : Nat) : Nat :=
  if vk_code = 162 ∨ vk_code = 163 then 17
  else if vk_code = 164 ∨ vk_code = 165 then 18
  else if vk_code = 160 ∨ vk_code = 161 then 16
  else vk_code

/-! ## Hotkey matching (keyboard.rs, `handle_translate_hotkey` lines 447-523
and `handle_speech_hotkey` lines 368-444)

The two handlers are textually identical except for which trigger function they
call and which anchor cell (`LAST_KEY_TIME` vs `SPEECH_LAST_KEY_TIME`) they
use, so one function embeds both; the caller supplies the slot's anchor and
receives the updated one together with whether the slot's trigger function was
invoked. -/

/-- Result of one handler call: `handled` is the Rust return value (`true` =
swallow the event), `trigger` records whether `trigger_translation` /
`trigger_speech` was called, and `modifierState` / `anchor` are the updated
cells. -/
structure MatchResult where
  handled : Bool
  trigger : Bool
  modifierState : Nat → Bool
  anchor : Option Nat

/-- One call of `handle_translate_hotkey` / `handle_speech_hotkey`, given the
slot's configured hotkey, the shared modifier map, the slot's double-press
anchor, the current time `now`, and the event (`vk_code`, `is_key_down`).
Mirrors keyboard.rs lines 450-518:
* `SingleKey`: trigger on a down of exactly the (un-normalized) target code.
* `ModifierCombo`: a normalized modifier key updates the map and is swallowed;
  a down of the (un-normalized) trigger key fires and is swallowed when all
  modifiers read as held; otherwise a key-up writes `false` for its normalized
  code, and the event passes through.
* `DoublePress`: on a down whose normalized code is the target, no anchor
  records `now`; with an anchor, `elapsed` in `[min, max)` fires, clears the
  anchor and swallows, `elapsed ≥ max` re-anchors at `now`, `elapsed < min`
  leaves everything unchanged. -/
def handle_hotkey (hotkey : Option HotkeyType) (state : Nat → Bool)
    (anchor : Option Nat) (now : Nat) (vk_code : Nat) (is_key_down : Bool) :
    MatchResult :=
  match hotkey with
  | none => ⟨false, false, state, anchor⟩
  | some (.SingleKey target_vk) =>
    if is_key_down ∧ vk_code = target_vk then ⟨true, true, state, anchor⟩
    else ⟨false, false, state, anchor⟩
  | some (.ModifierCombo modifiers key) =>
    let normalized_vk := normalize_vk_code vk_code
    if modifiers.contains normalized_vk then
      ⟨true, false, mapInsert state normalized_vk is_key_down, anchor⟩
    else if is_key_down ∧ vk_code = key then
      if modifiers.all fun m => state m then ⟨true, true, state, anchor⟩
      else ⟨false, false, state, anchor⟩
    else if ¬ is_key_down then
      ⟨false, false, mapInsert state normalized_vk false, anchor⟩
    else ⟨false, false, state, anchor⟩
  | some (.DoublePress target_vk min_interval_ms max_interval_ms) =>
    if is_key_down ∧ normalize_vk_code vk_code = target_vk then
      match anchor with
      | some last =>
        let elapsed := now - last
        if min_interval_ms ≤ elapsed ∧ elapsed < max_interval_ms then
          ⟨true, true, state, none⟩
        else if max_interval_ms ≤ elapsed then
          ⟨false, false, state, some now⟩
        else ⟨false, false, state, anchor⟩
      | none => ⟨false, false, state, some now⟩
    else ⟨false, false, state, anchor⟩

/-! ## Action dispatch (keyboard.rs, `trigger_translation` lines 175-201 and
`trigger_speech` lines 204-245)

Each trigger function performs an atomic check-then-set on its busy guard under
the guard's mutex and, when not busy, spawns the worker.  The returned `Bool`
records whether the worker was actually spawned. -/

/-- Rust `trigger_translation`: drop the trigger if `IS_PROCESSING` is set, else set
it and spawn the translation worker. -/
def trigger_translation (s : HookState) : HookState × Bool :=
  if s.isProcessing then (s, false)
  else ({ s with isProcessing := true }, true)

/-- Rust `trigger_speech`: drop the trigger if text-to-speech is disabled or
`IS_SPEAKING` is set; otherwise set the guard, clear `SHOULD_STOP_SPEECH`, and
spawn the speech worker. -/
def trigger_speech (cfg : HookConfig) (s : HookState) : HookState × Bool :=
  if ¬ cfg.speechEnabled then (s, false)
  else if s.isSpeaking then (s, false)
  else ({ s with isSpeaking := true, shouldStopSpeech := false }, true)

/-- End of the translation worker (keyboard.rs lines 191-198): whether
`translate_clipboard` returned `Ok` or `Err`, `IS_PROCESSING` is cleared.  The
worker's result is passed in to make the "every exit path" shape explicit. -/
def finishTranslation (_result : Except String Unit) (s : HookState) :
    HookState :=
  { s with isProcessing := false }

/-- End of the speech worker (keyboard.rs lines 235-242): whether
`speak_clipboard` returned `Ok` or `Err`, `IS_SPEAKING` is cleared. -/
def finishSpeech (_result : Except String Unit) (s : HookState) : HookState :=
  { s with isSpeaking := false }

/-- The state right after a speech dispatch was accepted: guard set, cancel
flag cleared (keyboard.rs lines 219 and 225). -/
def speechDispatched (s : HookState) : HookState :=
  { s with isSpeaking := true, shouldStopSpeech := false }

/-! ## The hook procedure (keyboard.rs, `keyboard_hook_proc` lines 525-596) -/

/-- A low-level keyboard event as seen by the hook: virtual-key code, key
transition (`WM_KEYDOWN`/`WM_SYSKEYDOWN` vs `WM_KEYUP`/`WM_SYSKEYUP`), and the
`LLKHF_INJECTED` flag marking synthetic events. -/
structure KeyEvent where
  vkCode : Nat
  isDown : Bool
  injected : Bool
  deriving DecidableEq, Repr

/-- Output of one hook invocation: the new global state, `blocked` (the hook
returned `LRESULT(1)` instead of `CallNextHookEx`), which trigger functions
were called, and which workers were actually spawned. -/
structure HookOutput where
  state : HookState
  blocked : Bool
  translateTriggerCalled : Bool
  speechTriggerCalled : Bool
  translateStarted : Bool
  speechStarted : Bool

/-- Rust `keyboard_hook_proc` for `n_code ≥ 0`: injected events pass straight
through; an Esc down while speaking sets the cancel flag and is blocked before
any matching; otherwise the translate handler runs first and, only when it does
not handle the event and both speech flags are enabled, the speech handler
runs.  Key-ups go through the same two handlers for modifier tracking. -/
def keyboard_hook_proc (cfg : HookConfig) (s : HookState) (now : Nat)
    (ev : KeyEvent) : HookOutput :=
  if ev.injected then ⟨s, false, false, false, false, false⟩
  else if ev.isDown then
    if ev.vkCode = 27 ∧ s.isSpeaking then
      ⟨{ s with shouldStopSpeech := true }, true, false, false, false, false⟩
    else
      let r := handle_hotkey cfg.translateHotkey s.modifierState s.lastKeyTime
        now ev.vkCode true
      let s1 := { s with modifierState := r.modifierState,
                         lastKeyTime := r.anchor }
      let ts := if r.trigger then trigger_translation s1 else (s1, false)
      if r.handled then ⟨ts.1, true, r.trigger, false, ts.2, false⟩
      else if cfg.speechHotkeyEnabled ∧ cfg.speechEnabled then
        let q := handle_hotkey cfg.speechHotkey ts.1.modifierState
          ts.1.speechLastKeyTime now ev.vkCode true
        let s2 := { ts.1 with modifierState := q.modifierState,
                              speechLastKeyTime := q.anchor }
        let qs := if q.trigger then trigger_speech cfg s2 else (s2, false)
        ⟨qs.1, q.handled, r.trigger, q.trigger, ts.2, qs.2⟩
      else ⟨ts.1, false, r.trigger, false, ts.2, false⟩
  else
    let r := handle_hotkey cfg.translateHotkey s.modifierState s.lastKeyTime
      now ev.vkCode false
    let s1 := { s with modifierState := r.modifierState,
                       lastKeyTime := r.anchor }
    let ts := if r.trigger then trigger_translation s1 else (s1, false)
    if r.handled then ⟨ts.1, true, r.trigger, false, ts.2, false⟩
    else if cfg.speechHotkeyEnabled ∧ cfg.speechEnabled then
      let q := handle_hotkey cfg.speechHotkey ts.1.modifierState
        ts.1.speechLastKeyTime now ev.vkCode false
      let s2 := { ts.1 with modifierState := q.modifierState,
                            speechLastKeyTime := q.anchor }
      let qs := if q.trigger then trigger_speech cfg s2 else (s2, false)
      ⟨qs.1, q.handled, r.trigger, q.trigger, ts.2, qs.2⟩
    else ⟨ts.1, false, r.trigger, false, ts.2, false⟩

/-! ## System traces -/

/-- One step of the whole system: either the hook processes a key event at some
time, or one of the two workers finishes (with some result). -/
inductive SysEvent where
  | key (now : Nat) (ev : KeyEvent)
  | translateDone (result : Except String Unit)
  | speechDone (result : Except String Unit)

/-- Apply one `SysEvent`, returning the new state and, for key events, the hook
output. -/
def sysStep (cfg : HookConfig) (s : HookState) :
    SysEvent → HookState × Option HookOutput
  | .key now ev =>
    let o := keyboard_hook_proc cfg s now ev
    (o.state, some o)
  | .translateDone r => (finishTranslation r s, none)
  | .speechDone r => (finishSpeech r s, none)

/-- Run a trace, collecting the state and every hook output. -/
def sysRun (cfg : HookConfig) (s : HookState) :
    List SysEvent → HookState × List HookOutput
  | [] => (s, [])
  | e :: es =>
    match sysStep cfg s e with
    | (s1, some o) =>
      let r := sysRun cfg s1 es
      (r.1, o :: r.2)
    | (s1, none) => sysRun cfg s1 es

/-! ## Speech worker with cancellation -/

/-- Terminal state of the speech worker. -/
inductive SpeechOutcome where
  | completed
  | cancelled
  | errored
  deriving DecidableEq, Repr

/-- Modelled from the spec: `SpeechManager::speak_text_with_cancel` is invoked
from `speak_clipboard` (keyboard.rs line 335) and from interactive.rs line 406
but its definition is not among the provided sources (speech.rs only defines
the non-cancellable `speak_text`).  Per the spec (§4.4), the action polls the
cancel flag at a bounded interval between slices of its long-running work and,
on observing the flag set, stops promptly in a "cancelled" (not "errored")
terminal state; interactive.rs lines 415-423 confirm that a cancelled run
returns `Ok` with the flag set.  The work is a list of slices, each tagged with
the value of the cancel flag observed at the poll just before it runs. -/
def speak_text_with_cancel : List (Bool × Except String Unit) → SpeechOutcome
  | [] => .completed
  | (flag_observed, slice) :: rest =>
    if flag_observed then .cancelled
    else
      match slice with
      | .error _ => .errored
      | .ok _ => speak_text_with_cancel rest

/-- A hotkey that carries a side-specific modifier identity as configured by
`key_name_to_vk`: a `ModifierCombo` listing one of the left/right-specific
codes `LShift/RShift/LCtrl/RCtrl/LAlt/RAlt` (160-165) as a modifier, or a
`DoublePress` whose target is one of those codes. -/
def usesSideSpecificModifier : HotkeyType → Prop
  | .SingleKey _ => False
  | .ModifierCombo mods _ => ∃ m ∈ mods, 160 ≤ m ∧ m ≤ 165
  | .DoublePress t _ _ => 160 ≤ t ∧ t ≤ 165

/-- Invariant: no side-specific code (160-165) is recorded as held in the
shared modifier map. -/
def sideFree (s : HookState) : Prop :=
  ∀ m, 160 ≤ m → m ≤ 165 → s.modifierState m = false

/-! ## Concrete scenarios used to settle individual claims -/

/-- Configuration with translate hotkey `Ctrl+T` and no speech hotkey. -/
def ctrlTCfg : HookConfig := ⟨some (.ModifierCombo [17] 84), none, false, false⟩

/-- State after a left-Ctrl down under `ctrlTCfg` (the down is swallowed). -/
def ctrlTState1 : HookState :=
  (keyboard_hook_proc ctrlTCfg initState 0 ⟨162, true, false⟩).state

/-- State after left-Ctrl down then T down under `ctrlTCfg` (the T down is
swallowed and fires the translate action). -/
def ctrlTState2 : HookState :=
  (keyboard_hook_proc ctrlTCfg ctrlTState1 10 ⟨84, true, false⟩).state

/-- Configuration with translate hotkey `F8+F8` and no speech hotkey. -/
def f8f8Cfg : HookConfig :=
  ⟨some (.DoublePress 119 50 500), none, false, false⟩

/-- State after a first F8 down at time 0 under `f8f8Cfg`. -/
def f8f8State1 : HookState :=
  (keyboard_hook_proc f8f8Cfg initState 0 ⟨119, true, false⟩).state

/-- Configuration whose translate hotkey is `LAlt+Q` and whose speech hotkey
is `LCtrl+LCtrl`, both carrying side-specific modifier identities. -/
def sideCfg : HookConfig :=
  ⟨some (.ModifierCombo [164] 81), some (.DoublePress 162 50 500), true, true⟩

/-- A trace pressing and releasing the physical left Alt, Q, and left Ctrl
keys (twice, 300ms apart), with a worker-completion event interleaved. -/
def sideEvs : List SysEvent :=
  [.key 0 ⟨164, true, false⟩, .key 50 ⟨81, true, false⟩,
   .key 90 ⟨81, false, false⟩, .key 120 ⟨164, false, false⟩,
   .translateDone (.ok ()), .key 200 ⟨162, true, false⟩,
   .key 250 ⟨162, false, false⟩, .key 500 ⟨162, true, false⟩,
   .key 550 ⟨162, false, false⟩, .speechDone (.ok ())]

/-! # Claims -/

/-- C1: for a configured `DoublePress{key, min, max}` hotkey (interval window
with `min ≤ max`, as the parser's `[50, 500)` default) and a key-down of that
key reaching the matcher: no anchor records `now` without firing; with an
anchor, `elapsed = now - anchor` in `[min, max)` fires exactly once and clears
the anchor; `elapsed ≥ max` re-anchors at `now` without firing; `elapsed < min`
fires nothing and leaves the anchor unchanged. -/
theorem doublePress_matcher_spec (k mn mx : Nat) (st : Nat → Bool)
    (anchor : Option Nat) (now vk : Nat) (hk : normalize_vk_code vk = k)
    (hwin : mn ≤ mx) :
    (anchor = none →
      handle_hotkey (some (.DoublePress k mn mx)) st anchor now vk true
        = ⟨false, false, st, some now⟩) ∧
    (∀ a, anchor = some a →
      (mn ≤ now - a ∧ now - a < mx →
        handle_hotkey (some (.DoublePress k mn mx)) st anchor now vk true
          = ⟨true, true, st, none⟩) ∧
      (mx ≤ now - a →
        handle_hotkey (some (.DoublePress k mn mx)) st anchor now vk true
          = ⟨false, false, st, some now⟩) ∧
      (now - a < mn →
        handle_hotkey (some (.DoublePress k mn mx)) st anchor now vk true
          = ⟨false, false, st, some a⟩)) := by
  constructor
  · intro ha
    subst ha
    simp [handle_hotkey, hk]
  · intro a ha
    subst ha
    refine ⟨fun hin => ?_, fun hlate => ?_, fun hearly => ?_⟩
    · simp [handle_hotkey, hk, hin]
    · have hnotin : ¬ (mn ≤ now - a ∧ now - a < mx) := by
        rintro ⟨-, hlt⟩; exact absurd (lt_of_le_of_lt hlate hlt) (lt_irrefl _)
      simp [handle_hotkey, hk, hnotin, hlate]
    · have hnotin : ¬ (mn ≤ now - a ∧ now - a < mx) := by
        rintro ⟨hge, -⟩; exact absurd (lt_of_le_of_lt hge hearly) (lt_irrefl _)
      have hnotlate : ¬ mx ≤ now - a := fun h =>
        absurd (lt_of_le_of_lt (le_trans hwin h) hearly) (lt_irrefl _)
      simp [handle_hotkey, hk, hnotin, hnotlate]

/-- Witness for C1 at `DoublePress{Ctrl, 50, 500}`: second press at 300ms
fires and clears the anchor. -/
theorem doublePress_matcher_spec_witness :
    handle_hotkey (some (.DoublePress 17 50 500)) (fun _ => false) (some 0)
      300 162 true = ⟨true, true, fun _ => false, none⟩ :=
  ((doublePress_matcher_spec 17 50 500 (fun _ => false) (some 0) 300 162
    (by decide) (by decide)).2 0 rfl).1 (by decide)

/-- C2: for a `ModifierCombo{modifiers, key}` hotkey: an event whose normalized
key is a listed modifier records its up/down state and is swallowed without
firing; a key-down of the trigger key (not itself a listed modifier) fires and
is swallowed exactly when every listed modifier is currently recorded held;
every other event passes through without firing. -/
theorem modifierCombo_matcher_spec (mods : List Nat) (key : Nat)
    (st : Nat → Bool) (anchor : Option Nat) (now vk : Nat) (d : Bool) :
    (mods.contains (normalize_vk_code vk) = true →
      handle_hotkey (some (.ModifierCombo mods key)) st anchor now vk d
        = ⟨true, false, mapInsert st (normalize_vk_code vk) d, anchor⟩) ∧
    (mods.contains (normalize_vk_code vk) = false → vk = key →
      ((mods.all fun m => st m) = true →
        handle_hotkey (some (.ModifierCombo mods key)) st anchor now vk true
          = ⟨true, true, st, anchor⟩) ∧
      ((mods.all fun m => st m) = false →
        handle_hotkey (some (.ModifierCombo mods key)) st anchor now vk true
          = ⟨false, false, st, anchor⟩)) ∧
    (mods.contains (normalize_vk_code vk) = false → ¬ (d = true ∧ vk = key) →
      (handle_hotkey (some (.ModifierCombo mods key)) st anchor now vk
        d).handled = false ∧
      (handle_hotkey (some (.ModifierCombo mods key)) st anchor now vk
        d).trigger = false) := by
  refine ⟨fun hin => ?_, fun hout hkey => ⟨fun hall => ?_, fun hnall => ?_⟩,
    fun hout hother => ?_⟩
  · have hin' : normalize_vk_code vk ∈ mods := by simpa using hin
    simp [handle_hotkey, hin']
  · subst hkey
    have hout' : normalize_vk_code vk ∉ mods := by simpa using hout
    have hall' : ∀ x ∈ mods, st x = true := by simpa using hall
    simp [handle_hotkey, hout']
    exact hall'
  · subst hkey
    have hout' : normalize_vk_code vk ∉ mods := by simpa using hout
    have hnall' : ¬ ∀ x ∈ mods, st x = true := by
      intro hcontra
      rw [show mods.all (fun m => st m) = true by simpa using hcontra] at hnall
      simp at hnall
    simp [handle_hotkey, hout', hnall']
  · have hout' : normalize_vk_code vk ∉ mods := by simpa using hout
    cases d with
    | true =>
      have hne : ¬ vk = key := fun h => hother ⟨rfl, h⟩
      simp [handle_hotkey, hout', hne]
    | false => simp [handle_hotkey, hout']

/-- Witness for C2 at `ModifierCombo{[Ctrl, Shift], T}`: a left-Ctrl down is
recorded and swallowed without firing. -/
theorem modifierCombo_matcher_spec_witness :
    handle_hotkey (some (.ModifierCombo [17, 16] 84)) (fun _ => false) none 0
      162 true
      = ⟨true, false, mapInsert (fun _ => false) 17 true, none⟩ :=
  (modifierCombo_matcher_spec [17, 16] 84 (fun _ => false) none 0 162
    true).1 (by decide)

/-- C3: dispatch is single-flight per action kind.  A trigger arriving while
the kind's busy guard is set is dropped with no state change; otherwise the
(mutex-atomic) check-then-set sets the guard and spawns the worker; the worker
clears the guard on completion for both the `Ok` and the `Err` result, after
which a new trigger dispatches again.  The second conjunct group replays the
spec's scenario: dispatch, duplicate trigger (no effect), completion, fresh
trigger (dispatches).  The translate and the speak kind behave alike; the speak
kind additionally requires text-to-speech to be enabled. -/
theorem dispatch_single_flight (cfg : HookConfig) (s : HookState)
    (res : Except String Unit) (henabled : cfg.speechEnabled = true) :
    (s.isProcessing = true → trigger_translation s = (s, false)) ∧
    (s.isProcessing = false →
      trigger_translation s = ({ s with isProcessing := true }, true) ∧
      trigger_translation ({ s with isProcessing := true })
        = ({ s with isProcessing := true }, false) ∧
      (finishTranslation res { s with isProcessing := true }).isProcessing
        = false ∧
      (trigger_translation
        (finishTranslation res { s with isProcessing := true })).2 = true) ∧
    (s.isSpeaking = true → trigger_speech cfg s = (s, false)) ∧
    (s.isSpeaking = false →
      trigger_speech cfg s = (speechDispatched s, true) ∧
      trigger_speech cfg (speechDispatched s) = (speechDispatched s, false) ∧
      (finishSpeech res (speechDispatched s)).isSpeaking = false ∧
      (trigger_speech cfg (finishSpeech res (speechDispatched s))).2
        = true) := by
  refine ⟨fun hb => ?_, fun hf => ?_, fun hb => ?_, fun hf => ?_⟩
  · simp [trigger_translation, hb]
  · refine ⟨?_, ?_, ?_, ?_⟩ <;>
      simp [trigger_translation, finishTranslation, hf]
  · simp [trigger_speech, hb, henabled]
  · refine ⟨?_, ?_, ?_, ?_⟩ <;>
      simp [trigger_speech, finishSpeech, speechDispatched, hf, henabled]

/-- Witness for C3 at the startup state with an all-enabled configuration. -/
theorem dispatch_single_flight_witness :
    (trigger_translation initState).2 = true ∧
    (trigger_speech ⟨none, none, true, true⟩ initState).2 = true := by
  have h := dispatch_single_flight ⟨none, none, true, true⟩ initState
    (.ok ()) rfl
  exact ⟨by rw [(h.2.1 rfl).1], by rw [(h.2.2.2 rfl).1]⟩

/-- C4 counterexample: `validate_hotkey` accepts the `ModifierCombo` produced
from `"Shift+Shift+T"`, although its modifier *set* is exactly `{Shift}`: the
rejection tests the list length, not the set, so the duplicated list
`[16, 16]` slips through. -/
theorem validate_shift_set_counterexample :
    parse "Shift+Shift+T" = .ok (.ModifierCombo [16, 16] 84) ∧
    [16, 16].dedup = [16] ∧
    validate_hotkey (.ModifierCombo [16, 16] 84) = .ok () :=
  ⟨rfl, by decide, rfl⟩

/-- C4 (amended): `validate_hotkey` rejects a `SingleKey` exactly when its key
is outside F1-F12 (vk 112-123); rejects a `ModifierCombo` whose modifier
*list* is exactly the one-element list `[Shift]` (a list with duplicated
`Shift` entries passes); accepts multi-modifier combinations including
`Shift`, e.g. `Ctrl+Shift+T`; and rejects any combination carrying
Ctrl-and-Alt with key Delete, or Win with key L — each rejection returning an
error string. -/
theorem validate_hotkey_spec (vk key key' : Nat) (mods mods' : List Nat) :
    ((validate_hotkey (.SingleKey vk)).isOk = true ↔ 112 ≤ vk ∧ vk ≤ 123) ∧
    (validate_hotkey (.ModifierCombo [16] key)).isOk = false ∧
    validate_hotkey (.ModifierCombo [17, 16] 84) = .ok () ∧
    ((mods.any fun m => m = 17 ∨ m = 162 ∨ m = 163) = true →
      (mods.any fun m => m = 18 ∨ m = 164 ∨ m = 165) = true → key = 46 →
      (validate_hotkey (.ModifierCombo mods key)).isOk = false) ∧
    ((mods'.any fun m => m = 91 ∨ m = 92) = true → key' = 76 →
      (validate_hotkey (.ModifierCombo mods' key')).isOk = false) := by
  refine ⟨?_, ?_, rfl, fun hc ha hk => ?_, fun hw hk => ?_⟩
  · constructor
    · intro hOk
      by_cases h : vk < 112 ∨ vk > 123
      · simp [validate_hotkey, h, Except.isOk, Except.toBool] at hOk
      · omega
    · intro hins
      have h : ¬ (vk < 112 ∨ vk > 123) := by omega
      simp [validate_hotkey, h, Except.isOk, Except.toBool]
  · simp [validate_hotkey, Except.isOk, Except.toBool]
  · subst hk
    have hc' : ∃ x ∈ mods, x = 17 ∨ x = 162 ∨ x = 163 := by simpa using hc
    have ha' : ∃ x ∈ mods, x = 18 ∨ x = 164 ∨ x = 165 := by simpa using ha
    by_cases hos : mods.length = 1 ∧ 16 ∈ mods
    · simp [validate_hotkey, hos.1, hos.2, Except.isOk, Except.toBool]
    · simp [validate_hotkey, hos, hc', ha', Except.isOk, Except.toBool]
  · subst hk
    have hw' : ∃ x ∈ mods', x = 91 ∨ x = 92 := by simpa using hw
    by_cases hos : mods'.length = 1 ∧ 16 ∈ mods'
    · simp [validate_hotkey, hos.1, hos.2, Except.isOk, Except.toBool]
    · simp [validate_hotkey, hos, hw', Except.isOk, Except.toBool]

/-- Witness for C4 at F9, T, Ctrl+Alt+Delete, Win+L. -/
theorem validate_hotkey_spec_witness :
    (validate_hotkey (.SingleKey 120)).isOk = true ∧
    (validate_hotkey (.ModifierCombo [16] 84)).isOk = false ∧
    (validate_hotkey (.ModifierCombo [17, 18] 46)).isOk = false ∧
    (validate_hotkey (.ModifierCombo [91] 76)).isOk = false :=
  ⟨((validate_hotkey_spec 120 84 76 [17, 18] [91]).1).mpr (by decide),
   (validate_hotkey_spec 120 84 76 [17, 18] [91]).2.1,
   (validate_hotkey_spec 120 46 76 [17, 18] [91]).2.2.2.1 (by decide)
     (by decide) rfl,
   (validate_hotkey_spec 120 84 76 [17, 18] [91]).2.2.2.2 (by decide) rfl⟩

/-- Whether `key_name_to_vk` succeeds depends only on the lowercased token. -/
theorem key_name_to_vk_isOk_congr (a b : List Char)
    (h : lowerChars a = lowerChars b) :
    (key_name_to_vk a).isOk = (key_name_to_vk b).isOk := by
  unfold key_name_to_vk
  rw [h]
  cases keyTableLookup (lowerChars b) <;> rfl

/-- Collecting modifier codes fails as soon as one token is unknown. -/
theorem collectVks_isOk_false (l : List (List Char)) (t : List Char)
    (hmem : t ∈ l) (herr : (key_name_to_vk t).isOk = false) :
    (collectVks l).isOk = false := by
  induction l with
  | nil => cases hmem
  | cons x xs ih =>
    unfold collectVks
    rcases List.mem_cons.mp hmem with h | h
    · cases hx : key_name_to_vk x with
      | error e => rfl
      | ok v => rw [h, hx] at herr; simp [Except.isOk, Except.toBool] at herr
    · cases hx : key_name_to_vk x with
      | error e => rfl
      | ok v =>
        cases hxs : collectVks xs with
        | error e => rfl
        | ok vs =>
          have hih := ih h
          rw [hxs] at hih
          simp [Except.isOk, Except.toBool] at hih

/-- Evaluating `parseCombo` on a token list split as preceding tokens plus the last
token: the last token is the trigger key, the rest are the modifiers. -/
theorem parseCombo_concat (ms : List (List Char)) (kt : List Char)
    (hne : ms ≠ []) :
    parseCombo (ms ++ [kt])
      = match key_name_to_vk kt with
        | .error e => .error e
        | .ok key =>
          match collectVks ms with
          | .error e => .error e
          | .ok mods => .ok (.ModifierCombo mods key) := by
  unfold parseCombo
  have hpos : 0 < ms.length := List.length_pos.mpr hne
  have hlen : ¬ (ms ++ [kt]).length < 2 := by
    rw [List.length_append]
    simp
    omega
  rw [if_neg hlen, List.getLastD_concat, List.dropLast_concat]

/-- Parsing a combo fails when any of its tokens is unknown. -/
theorem parseCombo_isOk_false (parts : List (List Char)) (t : List Char)
    (hmem : t ∈ parts) (herr : (key_name_to_vk t).isOk = false) :
    (parseCombo parts).isOk = false := by
  by_cases hlen : parts.length < 2
  · unfold parseCombo
    rw [if_pos hlen]
    rfl
  · have hne : parts ≠ [] := by
      intro h
      subst h
      simp at hlen
    have hdne : parts.dropLast ≠ [] := by
      intro h
      have : parts.length - 1 = 0 := by rw [← List.length_dropLast, h]; rfl
      omega
    rw [← List.dropLast_concat_getLast hne] at hmem ⊢
    rw [parseCombo_concat _ _ hdne]
    rcases List.mem_append.mp hmem with h | h
    · cases hk : key_name_to_vk (parts.getLast hne) with
      | error e => rfl
      | ok v =>
        have := collectVks_isOk_false _ _ h herr
        cases hc : collectVks parts.dropLast with
        | error e => rfl
        | ok vs => rw [hc] at this; simp [Except.isOk, Except.toBool] at this
    · rw [List.mem_singleton] at h
      cases hk : key_name_to_vk (parts.getLast hne) with
      | error e => rfl
      | ok v => rw [h, hk] at herr; simp [Except.isOk, Except.toBool] at herr

/-- C5: `HotkeyParser::parse`, over every input string: the empty string
fails; exactly two `'+'`-separated tokens naming the same key
case-insensitively give a `DoublePress` with the default `[50ms, 500ms)`
window; any other string of two or more tokens gives a `ModifierCombo` whose
trigger key is the last token and whose modifiers are the preceding tokens; a
single known token gives a `SingleKey`; and an unknown token anywhere makes
parsing fail with an error. -/
theorem parse_spec :
    parse "" = .error "Empty hotkey string" ∧
    (∀ (s : String) (a b : List Char) (vk : Nat),
      (trimChars s.toList).contains '+' = true →
      hotkeyTokens s = [a, b] →
      eqIgnoreAsciiCase a b = true →
      key_name_to_vk a = .ok vk →
      parse s = .ok (.DoublePress vk 50 500)) ∧
    (∀ (s : String) (ms : List (List Char)) (kt : List Char) (vk : Nat)
      (vks : List Nat),
      (trimChars s.toList).contains '+' = true →
      hotkeyTokens s = ms ++ [kt] →
      ms ≠ [] →
      (∀ a, ms = [a] → eqIgnoreAsciiCase a kt = false) →
      key_name_to_vk kt = .ok vk →
      collectVks ms = .ok vks →
      parse s = .ok (.ModifierCombo vks vk)) ∧
    (∀ (s : String) (vk : Nat),
      trimChars s.toList ≠ [] →
      (trimChars s.toList).contains '+' = false →
      key_name_to_vk (trimChars s.toList) = .ok vk →
      parse s = .ok (.SingleKey vk)) ∧
    (∀ (s : String) (t : List Char),
      t ∈ hotkeyTokens s →
      (key_name_to_vk t).isOk = false →
      (parse s).isOk = false) := by
  refine ⟨rfl, ?_, ?_, ?_, ?_⟩
  · intro s a b vk hplus htok hcase hok
    have hne : trimChars s.toList ≠ [] := by
      intro h
      rw [h] at hplus
      cases hplus
    have htok' : (splitPlus (trimChars s.toList)).map trimChars = [a, b] := by
      unfold hotkeyTokens at htok
      rw [if_pos hplus] at htok
      exact htok
    unfold parse
    rw [if_neg hne, if_pos hplus, htok']
    unfold parsePlus
    rw [if_pos ⟨rfl, hcase⟩]
    rw [show ([a, b].getD 0 []) = a from rfl, hok]
  · intro s ms kt vk vks hplus htok hms hnd hok hmods
    have hne : trimChars s.toList ≠ [] := by
      intro h
      rw [h] at hplus
      cases hplus
    have htok' : (splitPlus (trimChars s.toList)).map trimChars
        = ms ++ [kt] := by
      unfold hotkeyTokens at htok
      rw [if_pos hplus] at htok
      exact htok
    unfold parse
    rw [if_neg hne, if_pos hplus, htok']
    unfold parsePlus
    have hcond : ¬ ((ms ++ [kt]).length = 2 ∧
        eqIgnoreAsciiCase ((ms ++ [kt]).getD 0 []) ((ms ++ [kt]).getD 1 [])
          = true) := by
      rintro ⟨hlen, heq⟩
      have hms1 : ms.length = 1 := by
        rw [List.length_append] at hlen
        simp only [List.length_singleton] at hlen
        omega
      obtain ⟨m0, hm0⟩ := List.length_eq_one.mp hms1
      subst hm0
      have heq' : eqIgnoreAsciiCase m0 kt = true := heq
      rw [hnd m0 rfl] at heq'
      cases heq'
    rw [if_neg hcond, parseCombo_concat ms kt hms, hok, hmods]
  · intro s vk hne hnoplus hok
    unfold parse
    rw [if_neg hne, if_neg (by rw [hnoplus]; exact Bool.false_ne_true), hok]
  · intro s t hmem herr
    by_cases hempty : trimChars s.toList = []
    · unfold parse
      rw [if_pos hempty]
      rfl
    · by_cases hplus : (trimChars s.toList).contains '+' = true
      · have hmem' : t ∈ (splitPlus (trimChars s.toList)).map trimChars := by
          unfold hotkeyTokens at hmem
          rw [if_pos hplus] at hmem
          exact hmem
        unfold parse
        rw [if_neg hempty, if_pos hplus]
        unfold parsePlus
        by_cases hcond : ((splitPlus (trimChars s.toList)).map trimChars).length
            = 2 ∧ eqIgnoreAsciiCase
              (((splitPlus (trimChars s.toList)).map trimChars).getD 0 [])
              (((splitPlus (trimChars s.toList)).map trimChars).getD 1 [])
              = true
        · obtain ⟨hlen, heq⟩ := hcond
          obtain ⟨p0, p1, hp⟩ := List.length_eq_two.mp hlen
          rw [hp] at hmem' heq ⊢
          rw [if_pos ⟨rfl, heq⟩]
          have heq' : eqIgnoreAsciiCase p0 p1 = true := heq
          have hlow : lowerChars p0 = lowerChars p1 := of_decide_eq_true heq'
          have ht0 : (key_name_to_vk p0).isOk = false := by
            rcases List.mem_cons.mp hmem' with h | h
            · rw [← h]
              exact herr
            · rw [List.mem_singleton] at h
              rw [key_name_to_vk_isOk_congr p0 p1 hlow, ← h]
              exact herr
          cases hk : key_name_to_vk ([p0, p1].getD 0 []) with
          | error e => rfl
          | ok v =>
            rw [show ([p0, p1].getD 0 []) = p0 from rfl] at hk
            rw [hk] at ht0
            simp [Except.isOk, Except.toBool] at ht0
        · rw [if_neg hcond]
          exact parseCombo_isOk_false _ _ hmem' herr
      · have hnoplus : (trimChars s.toList).contains '+' = false := by
          cases h : (trimChars s.toList).contains '+'
          · rfl
          · exact absurd h hplus
        have hmem' : t = trimChars s.toList := by
          unfold hotkeyTokens at hmem
          rw [if_neg (by rw [hnoplus]; exact Bool.false_ne_true)] at hmem
          simpa using hmem
        unfold parse
        rw [if_neg hempty,
          if_neg (by rw [hnoplus]; exact Bool.false_ne_true)]
        rw [hmem'] at herr
        cases hk : key_name_to_vk (trimChars s.toList) with
        | error e => rfl
        | ok v => rw [hk] at herr; simp [Except.isOk, Except.toBool] at herr

/-- Witness for C5 on `"Ctrl+Ctrl"`, `"Ctrl+Shift+T"`, `"F9"` and
`"Foo+Bar"`. -/
theorem parse_spec_witness :
    parse "Ctrl+Ctrl" = .ok (.DoublePress 17 50 500) ∧
    parse "Ctrl+Shift+T" = .ok (.ModifierCombo [17, 16] 84) ∧
    parse "F9" = .ok (.SingleKey 120) ∧
    (parse "Foo+Bar").isOk = false :=
  ⟨parse_spec.2.1 "Ctrl+Ctrl" "Ctrl".toList "Ctrl".toList 17 (by decide)
    (by decide) (by decide) rfl,
   parse_spec.2.2.1 "Ctrl+Shift+T" ["Ctrl".toList, "Shift".toList]
    "T".toList 84 [17, 16] (by decide) (by decide) (by decide)
    (fun a ha => by cases ha) rfl rfl,
   parse_spec.2.2.2.1 "F9" 120 (by decide) (by decide) rfl,
   parse_spec.2.2.2.2 "Foo+Bar" "Foo".toList (by decide) (by decide)⟩

/-- Speech work that observes the cancel flag set after an untroubled prefix
ends cancelled, whatever its current slice and remaining work are. -/
theorem speak_cancelled_of_flag :
    ∀ (pre : List (Bool × Except String Unit)) (w : Except String Unit)
      (rest : List (Bool × Except String Unit)),
      (∀ p ∈ pre, p.1 = false ∧ p.2 = Except.ok ()) →
      speak_text_with_cancel (pre ++ (true, w) :: rest) = .cancelled := by
  intro pre
  induction pre with
  | nil =>
    intro w rest _
    simp [speak_text_with_cancel]
  | cons p ps ih =>
    intro w rest hpre
    obtain ⟨h1, h2⟩ := hpre p (List.mem_cons_self p ps)
    obtain ⟨f, sl⟩ := p
    simp only at h1 h2
    subst h1
    subst h2
    simp only [List.cons_append, speak_text_with_cancel, if_neg
      Bool.false_ne_true]
    exact ih w rest fun q hq => hpre q (List.mem_cons_of_mem _ hq)

/-- C6: while a speak action is in flight (`IS_SPEAKING` set), an Esc key-down
sets the speech cancel flag and is swallowed before any hotkey matching, under
every configuration; the speech work, which polls the flag between slices,
then finishes in the "cancelled" (not "errored") terminal state whatever work
remains; and the worker's completion clears the busy guard whatever the
result. -/
theorem esc_cancels_speech (cfg : HookConfig) (s : HookState) (now : Nat)
    (pre : List (Bool × Except String Unit)) (w : Except String Unit)
    (rest : List (Bool × Except String Unit)) (res : Except String Unit)
    (hspeaking : s.isSpeaking = true)
    (hpre : ∀ p ∈ pre, p.1 = false ∧ p.2 = Except.ok ()) :
    keyboard_hook_proc cfg s now ⟨27, true, false⟩
      = ⟨{ s with shouldStopSpeech := true }, true, false, false, false,
          false⟩ ∧
    speak_text_with_cancel (pre ++ (true, w) :: rest) = .cancelled ∧
    (finishSpeech res s).isSpeaking = false := by
  refine ⟨?_, speak_cancelled_of_flag pre w rest hpre, rfl⟩
  simp [keyboard_hook_proc, hspeaking]

/-- Witness for C6: speaking state, flag observed at the second poll. -/
theorem esc_cancels_speech_witness :
    keyboard_hook_proc ⟨none, none, true, true⟩ (speechDispatched initState) 5
      ⟨27, true, false⟩
      = ⟨{ speechDispatched initState with shouldStopSpeech := true }, true,
          false, false, false, false⟩ ∧
    speak_text_with_cancel [(false, .ok ()), (true, .ok ())] = .cancelled ∧
    (finishSpeech (.ok ()) (speechDispatched initState)).isSpeaking = false :=
  esc_cancels_speech ⟨none, none, true, true⟩ (speechDispatched initState) 5
    [(false, .ok ())] (.ok ()) [] (.ok ()) rfl
    (fun p hp => by rw [List.mem_singleton] at hp; subst hp; exact ⟨rfl, rfl⟩)

/-- C7 counterexample: with translate hotkey `Ctrl+T`, the Ctrl down and the T
down are both swallowed (the T down fires the action), yet the following T up
is passed through: a swallowed key-down whose key-up is not swallowed. -/
theorem swallowed_down_unswallowed_up :
    (keyboard_hook_proc ctrlTCfg initState 0 ⟨162, true, false⟩).blocked
      = true ∧
    (keyboard_hook_proc ctrlTCfg ctrlTState1 10 ⟨84, true, false⟩).blocked
      = true ∧
    (keyboard_hook_proc ctrlTCfg ctrlTState1 10
      ⟨84, true, false⟩).translateTriggerCalled = true ∧
    (keyboard_hook_proc ctrlTCfg ctrlTState2 20 ⟨84, false, false⟩).blocked
      = false :=
  ⟨rfl, rfl, rfl, rfl⟩

/-- C7 (amended): both the down and the up of a listed `ModifierCombo`
modifier key are swallowed, so a swallowed modifier down always has its up
swallowed; but the key-up of any key that is not a listed modifier — in
particular the combo's trigger key, whose down is swallowed when it fires —
is passed through. -/
theorem modifier_updown_swallowed (mods : List Nat) (key : Nat)
    (st : Nat → Bool) (anchor : Option Nat) (now vk : Nat) :
    (mods.contains (normalize_vk_code vk) = true →
      (handle_hotkey (some (.ModifierCombo mods key)) st anchor now vk
        true).handled = true ∧
      (handle_hotkey (some (.ModifierCombo mods key)) st anchor now vk
        false).handled = true) ∧
    (mods.contains (normalize_vk_code vk) = false →
      (handle_hotkey (some (.ModifierCombo mods key)) st anchor now vk
        false).handled = false) := by
  constructor
  · intro hin
    have hin' : normalize_vk_code vk ∈ mods := by simpa using hin
    exact ⟨by simp [handle_hotkey, hin'], by simp [handle_hotkey, hin']⟩
  · intro hout
    have hout' : normalize_vk_code vk ∉ mods := by simpa using hout
    simp [handle_hotkey, hout']

/-- Witness for C7's amended statement at `Ctrl+T` with a left-Ctrl event and
a T key-up. -/
theorem modifier_updown_swallowed_witness :
    (handle_hotkey (some (.ModifierCombo [17] 84)) (fun _ => false) none 0 162
      true).handled = true ∧
    (handle_hotkey (some (.ModifierCombo [17] 84)) (fun _ => false) none 0 162
      false).handled = true ∧
    (handle_hotkey (some (.ModifierCombo [17] 84)) (fun _ => false) none 0 84
      false).handled = false :=
  ⟨((modifier_updown_swallowed [17] 84 (fun _ => false) none 0 162).1
      (by decide)).1,
   ((modifier_updown_swallowed [17] 84 (fun _ => false) none 0 162).1
      (by decide)).2,
   (modifier_updown_swallowed [17] 84 (fun _ => false) none 0 84).2
      (by decide)⟩

/-- C8: every event flagged injected/synthetic is passed straight through:
the hook changes no state, consults no matcher, skips the Esc cancellation
path, and fires nothing — for every configuration, state, time, key and
direction, so a synthetic event matching any configured hotkey never
triggers. -/
theorem synthetic_events_pass_through (cfg : HookConfig) (s : HookState)
    (now : Nat) (ev : KeyEvent) (hinj : ev.injected = true) :
    keyboard_hook_proc cfg s now ev
      = ⟨s, false, false, false, false, false⟩ := by
  simp [keyboard_hook_proc, hinj]

/-- Witness for C8: an injected F9 down with `F9` configured for both slots,
and an injected Esc down while speaking. -/
theorem synthetic_events_pass_through_witness :
    keyboard_hook_proc ⟨some (.SingleKey 120), some (.SingleKey 120), true,
        true⟩ initState 0 ⟨120, true, true⟩
      = ⟨initState, false, false, false, false, false⟩ ∧
    keyboard_hook_proc ⟨some (.SingleKey 120), some (.SingleKey 120), true,
        true⟩ (speechDispatched initState) 0 ⟨27, true, true⟩
      = ⟨speechDispatched initState, false, false, false, false, false⟩ :=
  ⟨synthetic_events_pass_through _ initState 0 ⟨120, true, true⟩ rfl,
   synthetic_events_pass_through _ (speechDispatched initState) 0
     ⟨27, true, true⟩ rfl⟩

/-- C9 counterexample: with translate hotkey `F8+F8` (`DoublePress{119}`), an
F8 down at t=0 followed by a second F8 down notification at t=300 with **no
key-up in between** — exactly an auto-repeat of the held key — is processed by
the matcher, fires the trigger and spawns the action.  No per-key down/up
boolean exists and the repeated down is not ignored. -/
theorem autorepeat_fires_counterexample :
    parse "F8+F8" = .ok (.DoublePress 119 50 500) ∧
    (keyboard_hook_proc f8f8Cfg initState 0
      ⟨119, true, false⟩).translateTriggerCalled = false ∧
    f8f8State1.lastKeyTime = some 0 ∧
    (keyboard_hook_proc f8f8Cfg f8f8State1 300
      ⟨119, true, false⟩).translateTriggerCalled = true ∧
    (keyboard_hook_proc f8f8Cfg f8f8State1 300
      ⟨119, true, false⟩).translateStarted = true :=
  ⟨rfl, rfl, rfl, rfl, rfl⟩

/-- C9 (amended): the matcher keeps no per-key pressed boolean and does not
ignore a second down notification for an already-held key; every down is
processed like a first down.  For a `ModifierCombo` modifier a repeated down
only re-records "held" — idempotent, and swallowed again — while for a
`DoublePress` hotkey a repeated down of the held key is matched normally and
itself fires once the elapsed window is reached. -/
theorem autorepeat_processed (mods : List Nat) (key k mn mx : Nat)
    (st : Nat → Bool) (anchor : Option Nat) (a now now' vk : Nat)
    (hin : mods.contains (normalize_vk_code vk) = true)
    (hk : normalize_vk_code vk = k) (h1 : mn ≤ now' - a)
    (h2 : now' - a < mx) :
    handle_hotkey (some (.ModifierCombo mods key))
      ((handle_hotkey (some (.ModifierCombo mods key)) st anchor now vk
        true).modifierState) anchor now' vk true
      = ⟨true, false,
          (handle_hotkey (some (.ModifierCombo mods key)) st anchor now vk
            true).modifierState, anchor⟩ ∧
    (handle_hotkey (some (.DoublePress k mn mx)) st (some a) now' vk
      true).trigger = true := by
  constructor
  · have hin' : normalize_vk_code vk ∈ mods := by simpa using hin
    have hid : mapInsert (mapInsert st (normalize_vk_code vk) true)
        (normalize_vk_code vk) true
        = mapInsert st (normalize_vk_code vk) true := by
      funext x
      by_cases hx : x = normalize_vk_code vk <;> simp [mapInsert, hx]
    simp [handle_hotkey, hin', hid]
  · simp [handle_hotkey, hk, h1, h2]

/-- Witness for C9's amended statement: held left-Ctrl repeat, and a held
`Ctrl+Ctrl` double-press key firing from its auto-repeat at 300ms. -/
theorem autorepeat_processed_witness :
    handle_hotkey (some (.ModifierCombo [17] 84))
      ((handle_hotkey (some (.ModifierCombo [17] 84)) (fun _ => false) none 0
        162 true).modifierState) none 300 162 true
      = ⟨true, false,
          (handle_hotkey (some (.ModifierCombo [17] 84)) (fun _ => false) none
            0 162 true).modifierState, none⟩ ∧
    (handle_hotkey (some (.DoublePress 17 50 500)) (fun _ => false) (some 0)
      300 162 true).trigger = true :=
  autorepeat_processed [17] 84 17 50 500 (fun _ => false) none 0 0 300 162
    (by decide) (by decide) (by decide) (by decide)

/-- Normalization never outputs a side-specific code 160-165. -/
theorem normalize_ne_side (vk m : Nat) (h1 : 160 ≤ m) (h2 : m ≤ 165) :
    normalize_vk_code vk ≠ m := by
  unfold normalize_vk_code
  split_ifs <;> omega

/-- One handler call never changes the recorded state of a side-specific
code: every map insertion is keyed by a normalized code. -/
theorem handle_preserves_side (hk : Option HotkeyType) (st : Nat → Bool)
    (anchor : Option Nat) (now vk : Nat) (d : Bool) (m : Nat)
    (h1 : 160 ≤ m) (h2 : m ≤ 165) :
    (handle_hotkey hk st anchor now vk d).modifierState m = st m := by
  have hne : m ≠ normalize_vk_code vk :=
    fun h => normalize_ne_side vk m h1 h2 h.symm
  cases hk with
  | none => rfl
  | some h =>
    cases h with
    | SingleKey t =>
      simp only [handle_hotkey]
      split_ifs <;> rfl
    | ModifierCombo mods key =>
      simp only [handle_hotkey]
      split_ifs <;> simp [mapInsert, hne]
    | DoublePress t mn mx =>
      cases anchor <;>
        (simp only [handle_hotkey]; split_ifs <;> rfl)

/-- The accepted-dispatch half of `trigger_translation` leaves the modifier
map alone. -/
theorem trigger_translation_modifierState (s : HookState) :
    ((trigger_translation s).1).modifierState = s.modifierState := by
  unfold trigger_translation
  split_ifs <;> rfl

/-- The accepted-dispatch half of `trigger_speech` leaves the modifier map
alone. -/
theorem trigger_speech_modifierState (cfg : HookConfig) (s : HookState) :
    ((trigger_speech cfg s).1).modifierState = s.modifierState := by
  unfold trigger_speech
  split_ifs <;> rfl

/-- The conditional dispatch step of the hook leaves the modifier map
alone. -/
theorem ite_trigger_translation_modifierState (c : Prop) [Decidable c]
    (s : HookState) :
    ((if c then trigger_translation s else (s, false)).1).modifierState
      = s.modifierState := by
  split_ifs
  · exact trigger_translation_modifierState s
  · rfl

/-- The conditional speech dispatch step of the hook leaves the modifier map
alone. -/
theorem ite_trigger_speech_modifierState (c : Prop) [Decidable c]
    (cfg : HookConfig) (s : HookState) :
    ((if c then trigger_speech cfg s else (s, false)).1).modifierState
      = s.modifierState := by
  split_ifs
  · exact trigger_speech_modifierState cfg s
  · rfl

/-- One hook invocation never changes the recorded state of a side-specific
code. -/
theorem hook_preserves_side (cfg : HookConfig) (s : HookState) (now : Nat)
    (ev : KeyEvent) (m : Nat) (h1 : 160 ≤ m) (h2 : m ≤ 165) :
    (keyboard_hook_proc cfg s now ev).state.modifierState m
      = s.modifierState m := by
  unfold keyboard_hook_proc
  dsimp only
  split_ifs <;>
    simp [trigger_translation_modifierState, trigger_speech_modifierState,
      ite_trigger_translation_modifierState,
      ite_trigger_speech_modifierState,
      handle_preserves_side _ _ _ _ _ _ m h1 h2]

/-- A hotkey carrying a side-specific modifier identity never fires at the
matcher, in any side-free state: the double-press target comparison runs on
normalized codes, which are never side-specific, and a side-specific combo
modifier is never recorded held. -/
theorem handle_no_trigger_side (hk : HotkeyType)
    (hside : usesSideSpecificModifier hk) (st : Nat → Bool)
    (hst : ∀ m, 160 ≤ m → m ≤ 165 → st m = false) (anchor : Option Nat)
    (now vk : Nat) (d : Bool) :
    (handle_hotkey (some hk) st anchor now vk d).trigger = false := by
  cases hk with
  | SingleKey t => cases hside
  | ModifierCombo mods key =>
    obtain ⟨m, hmem, h1, h2⟩ := hside
    have hallf : (mods.all fun x => st x) = false := by
      cases hall : mods.all fun x => st x
      · rfl
      · exfalso
        have := List.all_eq_true.mp hall m hmem
        rw [hst m h1 h2] at this
        cases this
    simp only [handle_hotkey]
    split_ifs with hA hB hC hD
    · rfl
    · rw [hallf] at hC
      cases hC
    · rfl
    · rfl
    · rfl
  | DoublePress t mn mx =>
    obtain ⟨h1, h2⟩ := hside
    have hcond : ¬ (d = true ∧ normalize_vk_code vk = t) :=
      fun h => normalize_ne_side vk t h1 h2 h.2
    simp only [handle_hotkey]
    rw [if_neg hcond]

/-- The hook neither calls nor starts the translate trigger when the
translate hotkey uses a side-specific modifier and the state is side-free. -/
theorem hook_no_translate_trigger (cfg : HookConfig) (s : HookState)
    (now : Nat) (ev : KeyEvent) (hk : HotkeyType)
    (hcfg : cfg.translateHotkey = some hk)
    (hside : usesSideSpecificModifier hk) (hs : sideFree s) :
    (keyboard_hook_proc cfg s now ev).translateTriggerCalled = false ∧
    (keyboard_hook_proc cfg s now ev).translateStarted = false := by
  have hr : ∀ d, (handle_hotkey cfg.translateHotkey s.modifierState
      s.lastKeyTime now ev.vkCode d).trigger = false := by
    intro d
    rw [hcfg]
    exact handle_no_trigger_side hk hside s.modifierState hs s.lastKeyTime
      now ev.vkCode d
  have h1 := hr true
  have h2 := hr false
  unfold keyboard_hook_proc
  dsimp only
  generalize handle_hotkey cfg.translateHotkey s.modifierState
    s.lastKeyTime now ev.vkCode true = r1 at h1 ⊢
  generalize handle_hotkey cfg.translateHotkey s.modifierState
    s.lastKeyTime now ev.vkCode false = r2 at h2 ⊢
  split_ifs <;> simp_all

set_option maxHeartbeats 1600000 in
/-- The hook neither calls nor starts the speech trigger when the speech
hotkey uses a side-specific modifier and the state is side-free. -/
theorem hook_no_speech_trigger (cfg : HookConfig) (s : HookState)
    (now : Nat) (ev : KeyEvent) (hk : HotkeyType)
    (hcfg : cfg.speechHotkey = some hk)
    (hside : usesSideSpecificModifier hk) (hs : sideFree s) :
    (keyboard_hook_proc cfg s now ev).speechTriggerCalled = false ∧
    (keyboard_hook_proc cfg s now ev).speechStarted = false := by
  have hq : ∀ (st' : Nat → Bool), (∀ m, 160 ≤ m → m ≤ 165 → st' m = false) →
      ∀ (anchor : Option Nat) (d : Bool),
      (handle_hotkey cfg.speechHotkey st' anchor now ev.vkCode d).trigger
        = false := by
    intro st' hst' anchor d
    rw [hcfg]
    exact handle_no_trigger_side hk hside st' hst' anchor now ev.vkCode d
  have hstDown : ∀ m, 160 ≤ m → m ≤ 165 →
      (handle_hotkey cfg.translateHotkey s.modifierState s.lastKeyTime now
        ev.vkCode true).modifierState m = false :=
    fun m h1 h2 =>
      (handle_preserves_side _ _ _ _ _ _ m h1 h2).trans (hs m h1 h2)
  have hstUp : ∀ m, 160 ≤ m → m ≤ 165 →
      (handle_hotkey cfg.translateHotkey s.modifierState s.lastKeyTime now
        ev.vkCode false).modifierState m = false :=
    fun m h1 h2 =>
      (handle_preserves_side _ _ _ _ _ _ m h1 h2).trans (hs m h1 h2)
  have hqDown := hq _ hstDown
  have hqUp := hq _ hstUp
  unfold keyboard_hook_proc
  dsimp only
  simp only [ite_trigger_translation_modifierState, hqDown, hqUp]
  split_ifs <;> simp_all

/-- One system step preserves side-freeness of the modifier map. -/
theorem sysStep_preserves_sideFree (cfg : HookConfig) (s : HookState)
    (e : SysEvent) (hs : sideFree s) : sideFree (sysStep cfg s e).1 := by
  intro m h1 h2
  cases e with
  | key now ev =>
    simp only [sysStep]
    exact (hook_preserves_side cfg s now ev m h1 h2).trans (hs m h1 h2)
  | translateDone r => exact hs m h1 h2
  | speechDone r => exact hs m h1 h2

/-- Along any trace from a side-free state, a slot configured with a
side-specific modifier identity never has its trigger called or its worker
started. -/
theorem sysRun_no_trigger (cfg : HookConfig) :
    ∀ (evs : List SysEvent) (s : HookState), sideFree s →
      (∀ hk, cfg.translateHotkey = some hk → usesSideSpecificModifier hk →
        ∀ o ∈ (sysRun cfg s evs).2,
          o.translateTriggerCalled = false ∧ o.translateStarted = false) ∧
      (∀ hk, cfg.speechHotkey = some hk → usesSideSpecificModifier hk →
        ∀ o ∈ (sysRun cfg s evs).2,
          o.speechTriggerCalled = false ∧ o.speechStarted = false) := by
  intro evs
  induction evs with
  | nil =>
    intro s hs
    constructor <;>
      (intro hk hcfg hside o ho; simp [sysRun] at ho)
  | cons e es ih =>
    intro s hs
    have hs' := sysStep_preserves_sideFree cfg s e hs
    cases e with
    | key now ev =>
      constructor
      · intro hk hcfg hside o ho
        simp only [sysRun, sysStep] at ho
        rcases List.mem_cons.mp ho with h | h
        · subst h
          exact hook_no_translate_trigger cfg s now ev hk hcfg hside hs
        · exact (ih (keyboard_hook_proc cfg s now ev).state hs').1 hk hcfg
            hside o h
      · intro hk hcfg hside o ho
        simp only [sysRun, sysStep] at ho
        rcases List.mem_cons.mp ho with h | h
        · subst h
          exact hook_no_speech_trigger cfg s now ev hk hcfg hside hs
        · exact (ih (keyboard_hook_proc cfg s now ev).state hs').2 hk hcfg
            hside o h
    | translateDone r =>
      constructor
      · intro hk hcfg hside o ho
        simp only [sysRun, sysStep] at ho
        exact (ih (finishTranslation r s) hs').1 hk hcfg hside o ho
      · intro hk hcfg hside o ho
        simp only [sysRun, sysStep] at ho
        exact (ih (finishTranslation r s) hs').2 hk hcfg hside o ho
    | speechDone r =>
      constructor
      · intro hk hcfg hside o ho
        simp only [sysRun, sysStep] at ho
        exact (ih (finishSpeech r s) hs').1 hk hcfg hside o ho
      · intro hk hcfg hside o ho
        simp only [sysRun, sysStep] at ho
        exact (ih (finishSpeech r s) hs').2 hk hcfg hside o ho

/-- C10: a hotkey configured with a side-specific modifier identity (LCtrl,
RCtrl, LAlt, RAlt, LShift, RShift — codes 160-165, e.g. from `"LCtrl+LCtrl"`
or `"LAlt+Q"`) never triggers on any input event sequence from startup:
incoming events are normalized to generic codes before comparison while the
configured code stays side-specific, so the `DoublePress` target comparison
and the `ModifierCombo` modifier-held test can never succeed, for either the
translate or the speech slot. -/
theorem sideSpecific_hotkey_never_triggers (cfg : HookConfig)
    (evs : List SysEvent) (hk hk' : HotkeyType) :
    (cfg.translateHotkey = some hk → usesSideSpecificModifier hk →
      ∀ o ∈ (sysRun cfg initState evs).2,
        o.translateTriggerCalled = false ∧ o.translateStarted = false) ∧
    (cfg.speechHotkey = some hk' → usesSideSpecificModifier hk' →
      ∀ o ∈ (sysRun cfg initState evs).2,
        o.speechTriggerCalled = false ∧ o.speechStarted = false) := by
  have h := sysRun_no_trigger cfg evs initState (fun m _ _ => rfl)
  exact ⟨fun hcfg hside => h.1 hk hcfg hside,
    fun hcfg hside => h.2 hk' hcfg hside⟩

/-- Witness for C10: translate slot `LAlt+Q`, speech slot `LCtrl+LCtrl`,
against a trace of physical left-Alt, Q and twice left-Ctrl presses. -/
theorem sideSpecific_hotkey_never_triggers_witness :
    ((sysRun sideCfg initState sideEvs).2.all fun o =>
      !o.translateTriggerCalled && !o.translateStarted
        && !o.speechTriggerCalled && !o.speechStarted) = true := by
  apply List.all_eq_true.mpr
  intro o ho
  have h := sideSpecific_hotkey_never_triggers sideCfg sideEvs
    (.ModifierCombo [164] 81) (.DoublePress 162 50 500)
  have h1 := h.1 rfl ⟨164, by decide, by decide⟩ o ho
  have h2 := h.2 rfl ⟨by decide, by decide⟩ o ho
  simp [h1.1, h1.2, h2.1, h2.2]

end Tagent








